import Mathlib

/-!
Shallow embedding of the two Python programs of `dmarc_dsn_processor`
(`dmarc_dsn_processor.py`, the DSN extractor, and
`build_postfix_discard_table.py`, the discard-table builder), together with
theorems settling the specification claims about them.

Python strings are modelled as Lean `String` / `List Char`; machine-level
concerns do not arise.  Fallible Python code (unhandled exceptions,
`sys.exit`) is modelled with explicit result types.
-/

/-- Decidable equality for `Except`, used to evaluate the embedding on
concrete inputs. -/
instance {ε α : Type} [DecidableEq ε] [DecidableEq α] :
    DecidableEq (Except ε α)
  | .error a, .error b =>
    if h : a = b then .isTrue (by rw [h]) else .isFalse (by simp [h])
  | .error _, .ok _ => .isFalse (by simp)
  | .ok _, .error _ => .isFalse (by simp)
  | .ok a, .ok b =>
    if h : a = b then .isTrue (by rw [h]) else .isFalse (by simp [h])

/-- Python regex `\s` on ASCII text: the six whitespace characters. -/
def isWS (c : Char) : Bool :=
  c = ' ' || c = '\t' || c = '\n' || c = '\r' || c = '\x0b' || c = '\x0c'

/-- ASCII decimal digit, Python regex `\d` on ASCII text. -/
def isDigit10 (c : Char) : Bool :=
  '0' ≤ c && c ≤ '9'

/-- Models Python `int(s)` for a plain optionally-signed decimal literal
(the forms exercised by the claims; surrounding whitespace and `_`
separators, which Python also accepts, are not modelled). -/
def digitsVal : List Char → Option Nat
  | [] => none
  | l =>
    if l.all isDigit10 then
      some (l.foldl (fun acc c => acc * 10 + (c.toNat - '0'.toNat)) 0)
    else
      none

/-- Models Python `int(s)` returning `none` where Python raises `ValueError`. -/
def parseIntStr (s : String) : Option Int :=
  match s.toList with
  | '-' :: ds => (digitsVal ds).map (fun n => -(n : Int))
  | '+' :: ds => (digitsVal ds).map (fun n => (n : Int))
  | ds => (digitsVal ds).map (fun n => (n : Int))

/-- JSON insignificant whitespace skipping (Python `json` module). -/
def skipSpaces (l : List Char) : List Char :=
  l.dropWhile (fun c => c = ' ' || c = '\t' || c = '\n' || c = '\r')

/-- Parse the remainder of a JSON string after its opening quote.
Escape sequences are not modelled: the extractor writes the records with
`json.dumps` and none of the fields involved here contain characters that
`json.dumps` escapes. -/
def parseJString : List Char → Option (List Char × List Char)
  | [] => none
  | '"' :: rest => some ([], rest)
  | '\\' :: _ => none
  | c :: rest => (parseJString rest).map (fun p => (c :: p.1, p.2))

/-- Parse a JSON value of the shapes the domain-log records contain:
a string or `null`.  Result: `none` = JSON `null`, `some s` = string. -/
def parseJValue (l : List Char) : Option (Option String × List Char) :=
  match l with
  | '"' :: rest => (parseJString rest).map (fun p => (some (String.mk p.1), p.2))
  | 'n' :: 'u' :: 'l' :: 'l' :: rest => some (none, rest)
  | _ => none

/-- Parse the members of a non-empty JSON object, starting right after the
opening brace; consumes the closing brace.  `fuel` bounds recursion. -/
def parseMembers (fuel : Nat) (l : List Char) :
    Option (List (String × Option String) × List Char) :=
  match fuel with
  | 0 => none
  | fuel + 1 =>
    match skipSpaces l with
    | '"' :: rest =>
      match parseJString rest with
      | none => none
      | some (key, r1) =>
        match skipSpaces r1 with
        | ':' :: r2 =>
          match parseJValue (skipSpaces r2) with
          | none => none
          | some (v, r3) =>
            match skipSpaces r3 with
            | ',' :: r4 =>
              (parseMembers fuel r4).map
                (fun p => ((String.mk key, v) :: p.1, p.2))
            | '}' :: r4 => some ([(String.mk key, v)], r4)
            | _ => none
        | _ => none
    | _ => none

/-- Models Python `json.loads` restricted to flat objects whose values are
strings or `null` — exactly the shape the extractor writes with
`json.dumps`.  `none` models a raised `json.JSONDecodeError`. -/
def jsonLoads (s : String) : Option (List (String × Option String)) :=
  match skipSpaces s.toList with
  | '{' :: rest =>
    match skipSpaces rest with
    | '}' :: r2 => if skipSpaces r2 = [] then some [] else none
    | _ =>
      match parseMembers (s.length + 1) rest with
      | some (ps, r) => if skipSpaces r = [] then some ps else none
      | none => none
  | _ => none

/-- Python `dict` lookup on the parsed member list: for duplicate keys the
later member wins, as in Python `json.loads`.  `none` models a `KeyError`
on subscripting. -/
def lookupLast (obj : List (String × Option String)) (k : String) :
    Option (Option String) :=
  (obj.reverse.find? (fun p => p.1 = k)).map (fun p => p.2)

/-- The ways `handle_dsn` can raise an unhandled Python exception. -/
inductive BuildErr where
  /-- `json.loads(None)` on an empty file: `TypeError`. -/
  | typeErr
  /-- the final line is not valid JSON: `json.JSONDecodeError`. -/
  | jsonErr
  /-- a subscripted key is missing from the record: `KeyError`. -/
  | keyErr
deriving DecidableEq

/-- The `for line in json_file` loop of `handle_dsn`: `line` is the last
line of the file, or Python `None` (here `none`) for an empty file. -/
def lastLine : List String → Option String
  | [] => none
  | [l] => some l
  | _ :: l :: ls => lastLine (l :: ls)

/-- `handle_dsn` of `build_postfix_discard_table.py`: read the file to its
final line, parse that line as one JSON record, print the table line.
The file content is modelled as its list of lines.  The source f-string
interpolates the module-level loop variable `file`; at the only call site,
`handle_dsn(file)`, it equals the `filename` argument, passed here as
`fileName`.  A `None` value rendered by the f-string prints as `None`. -/
def handle_dsn (fileName : String) (content : List String) :
    Except BuildErr String :=
  match lastLine content with
  | none => .error .typeErr
  | some line =>
    match jsonLoads line with
    | none => .error .jsonErr
    | some obj =>
      match lookupLast obj "date" with
      | none => .error .keyErr
      | some dateV =>
        match lookupLast obj "orig_rcpt" with
        | none => .error .keyErr
        | some origV =>
          let dateStr := match dateV with
            | none => "unknown"
            | some d => d
          let origStr := match origV with
            | none => "None"
            | some o => o
          .ok (origStr ++ " discard:report for " ++ fileName ++
               " bounced " ++ dateStr ++ " last time")

/-- One entry of `os.listdir` over the `domains/` directory, with the data
the builder consults: whether it is a regular file, its age in whole days
(`(TODAY - mtime).days`), and its content as a list of lines. -/
structure DirEntry where
  name : String
  isFile : Bool
  ageDays : Int
  content : List String
deriving DecidableEq

/-- The main file loop of `build_postfix_discard_table.py`: for each
regular file whose age in days is below `MIN_AGE`, run `handle_dsn` and
print its line; an unhandled exception aborts the whole run, so the result
is the list of lines printed before the abort together with the exception,
if any. -/
def runFiles (minAge : Int) : List DirEntry → List String × Option BuildErr
  | [] => ([], none)
  | e :: es =>
    if e.isFile then
      if e.ageDays < minAge then
        match handle_dsn e.name e.content with
        | .error err => ([], some err)
        | .ok line =>
          let r := runFiles minAge es
          (line :: r.1, r.2)
      else runFiles minAge es
    else runFiles minAge es

/-- Result of one run of the builder.  `exit1` is a fatal configuration
error (before any file is scanned); `output` carries the printed table
lines and, when a file handler raised, the unhandled exception. -/
inductive BuildResult where
  | exit1
  | output (lines : List String) (crash : Option BuildErr)
deriving DecidableEq

/-- The builder main program, from the `MIN_AGE` validation on: the
`DATA_DIR` existence checks that precede it are environmental and modelled
as satisfied.  `minAgeEnv` is `ENV[MIN_AGE]` (`none` when unset). -/
def buildTable (minAgeEnv : Option String) (entries : List DirEntry) :
    BuildResult :=
  let mstr := minAgeEnv.getD "30"
  match parseIntStr mstr with
  | none => .exit1
  | some n =>
    if n < 0 then .exit1
    else if n > 90 then .exit1
    else
      let r := runFiles n entries
      .output r.1 r.2

/-! ## The DSN extractor, `dmarc_dsn_processor.py` -/

/-- Split a character list at every occurrence of the separator, keeping
empty segments, as Python `str.split(sep)` does. -/
def splitOnChar (sep : Char) : List Char → List (List Char)
  | [] => [[]]
  | c :: cs =>
    let r := splitOnChar sep cs
    if c = sep then [] :: r
    else
      match r with
      | [] => [[c]]
      | h :: t => (c :: h) :: t

/-- Models the third-party `validators.domain` syntactic check used by the
extractor (the library itself is not part of this repository): at least two
dot-separated labels, each label non-empty, at most 63 characters,
consisting of ASCII letters, digits and hyphens, and neither starting nor
ending with a hyphen. -/
def validators_domain (s : String) : Bool :=
  let labels := splitOnChar '.' s.toList
  decide (2 ≤ labels.length) &&
  labels.all (fun cs =>
    decide (cs ≠ []) && decide (cs.length ≤ 63) &&
    cs.all (fun c => c.isAlphanum || c = '-') &&
    (match cs with | c :: _ => decide (c ≠ '-') | [] => false) &&
    (match cs.reverse with | c :: _ => decide (c ≠ '-') | [] => false))

/-- Models the third-party `validators.email` syntactic check used by the
extractor: one `@` sign, a non-empty local part of unexceptional ASCII
characters, and a domain part passing `validators_domain`. -/
def validators_email (s : String) : Bool :=
  match splitOnChar '@' s.toList with
  | [loc, dom] =>
    decide (loc ≠ []) &&
    loc.all (fun c => c.isAlphanum || c = '.' || c = '_' ||
      c = '%' || c = '+' || c = '-' || c = '=') &&
    validators_domain (String.mk dom)
  | _ => false

/-- `re.sub(RE_822_PREFIX, '', s)` on the character list: remove every
occurrence of the literal `rfc822;` together with one optional following
whitespace character (the greedy `\s?`), scanning left to right as
`re.sub` does and resuming right after each removed occurrence. -/
def strip822List : List Char → List Char
  | 'r' :: 'f' :: 'c' :: '8' :: '2' :: '2' :: ';' :: c :: rest =>
    if isWS c then strip822List rest else strip822List (c :: rest)
  | 'r' :: 'f' :: 'c' :: '8' :: '2' :: '2' :: ';' :: [] => []
  | c :: cs => c :: strip822List cs
  | [] => []

/-- `re.sub(RE_822_PREFIX, '', s)` of the source. -/
def strip822 (s : String) : String :=
  String.mk (strip822List s.toList)

/-- Whether the list starts with a `\s` character. -/
def headWS : List Char → Bool
  | d :: _ => isWS d
  | [] => false

/-- `RE_MULTILINE` = `\n\s+`: global replacement by one space.  At a
newline followed by whitespace one space is emitted and the whole
whitespace run is consumed (the greedy `\s+`) — the Boolean is `true`
while the scanner sits inside the whitespace run of the current match —
after which scanning resumes, exactly as `re.sub` proceeds past each
match. -/
def unfoldAux : Bool → List Char → List Char
  | _, [] => []
  | true, c :: cs =>
    if isWS c then unfoldAux true cs else c :: unfoldAux false cs
  | false, c :: cs =>
    if c = '\n' && headWS cs then ' ' :: unfoldAux true cs
    else c :: unfoldAux false cs

/-- `unfold` of the source: a header value without continuation breaks. -/
def unfold (s : String) : String :=
  String.mk (unfoldAux false s.toList)

/-- Whether the core of `RE_REPORT_DOMAIN`, the literal `Report Domain:`
followed by one `\s` character, matches at the head of the list. -/
def rdAt (l : List Char) : Bool :=
  match l with
  | 'R' :: 'e' :: 'p' :: 'o' :: 'r' :: 't' :: ' ' :: 'D' :: 'o' :: 'm' ::
    'a' :: 'i' :: 'n' :: ':' :: c :: _ => isWS c
  | _ => false

/-- The suffix left by `re.sub(RE_REPORT_DOMAIN, '', s)` when the anchored
greedy pattern `^.*Report Domain:\s` matches: everything after the LAST
position where `rdAt` holds (greedy `.*` backtracks from the right).
`none` when the pattern does not match at all. -/
def stripRDAux : List Char → Option (List Char)
  | [] => none
  | c :: cs =>
    match stripRDAux cs with
    | some r => some r
    | none => if rdAt (c :: cs) then some ((c :: cs).drop 15) else none

/-- `re.sub(RE_REPORT_DOMAIN, '', s)`: unchanged when the pattern has no
match. -/
def stripRD (l : List Char) : List Char :=
  (stripRDAux l).getD l

/-- Whether `RE_SUBMITTER` = `\sSubmitter:\s.*$` matches at the head of
the list. -/
def subAt (l : List Char) : Bool :=
  match l with
  | a :: 'S' :: 'u' :: 'b' :: 'm' :: 'i' :: 't' :: 't' :: 'e' :: 'r' ::
    ':' :: b :: _ => isWS a && isWS b
  | _ => false

/-- The prefix kept by `re.sub(RE_SUBMITTER, '', s)`: everything before
the FIRST (leftmost) match position; `none` when the pattern does not
match. -/
def stripSubAux : List Char → Option (List Char)
  | [] => none
  | c :: cs =>
    if subAt (c :: cs) then some []
    else (stripSubAux cs).map (fun r => c :: r)

/-- `re.sub(RE_SUBMITTER, '', s)`: unchanged when the pattern has no
match. -/
def stripSub (l : List Char) : List Char :=
  (stripSubAux l).getD l

/-- `get_report_domain_from_subject`: `.error reason` models
`save_message(reason)` followed by `sys.exit(0)`; `.ok none` is the
Python `return None` for a missing subject, `.ok (some d)` a validated
report domain. -/
def get_report_domain_from_subject (subject : Option String) :
    Except String (Option String) :=
  match subject with
  | none => .ok none
  | some s =>
    let report_domain : String := String.mk (stripSub (stripRD s.toList))
    if s = report_domain then .error "no_subject_re_match"
    else if !(validators_domain report_domain) then .error "no_report_domain"
    else .ok (some report_domain)

/-- One extracted DSN record (a Python dict).  A field value `none` means
the key is absent from the dict; for the nullable fields `diag_code`,
`status` and `report_domain` the value `some none` means the key is
present with value `None`. -/
structure Rcpt where
  action : Option String := none
  final_rcpt : Option String := none
  orig_rcpt : Option String := none
  diag_code : Option (Option String) := none
  status : Option (Option String) := none
  report_domain : Option (Option String) := none
  date : Option String := none
deriving DecidableEq

/-- One per-recipient block of a `message/delivery-status` part, as seen
by the subpart walk: each field is the header value when the header is
present. -/
structure DsBlock where
  action : Option String
  finalRecipient : Option String
  originalRecipient : Option String
  diagnosticCode : Option String
  statusHeader : Option String
deriving DecidableEq

/-- One MIME part of the walked message, reduced to the data the extractor
consults.  For `rfc822` the list holds the `Subject` header value of each
subpart in walk order; for `rfc822headers` the `Subject` of the re-parsed
payload. -/
inductive MimePart where
  | deliveryStatus (blocks : List DsBlock)
  | rfc822 (subjects : List (Option String))
  | rfc822headers (subject : Option String)
  | other
deriving DecidableEq

/-- The parsed inbound message: its MIME parts in walk order plus the four
top-level headers the Google Groups fallback consults. -/
structure Msg where
  parts : List MimePart
  fromHeader : Option String
  xFailedRecipients : Option String
  references : Option String
  inReplyTo : Option String
deriving DecidableEq

/-- `^<(.*)-\d+@.*$` tail test: a hyphen, one or more ASCII digits, then
`@`, at the head of the list. -/
def dashDigitsAt : List Char → Bool
  | '-' :: d :: rest =>
    isDigit10 d &&
    (match (d :: rest).dropWhile isDigit10 with
     | '@' :: _ => true
     | _ => false)
  | _ => false

/-- The group captured by `RE_REFERENCES_REPORT_DOMAIN` after the leading
`<`: everything before the LAST position where `dashDigitsAt` holds
(greedy `(.*)`); `none` when no such position exists. -/
def ggCapture : List Char → Option (List Char)
  | [] => none
  | c :: cs =>
    match ggCapture cs with
    | some r => some (c :: r)
    | none => if dashDigitsAt (c :: cs) then some [] else none

/-- `re.search(RE_REFERENCES_REPORT_DOMAIN, s)` = `^<(.*)-\d+@.*$`:
the captured group, or `none` when the header does not match. -/
def refExtract (l : List Char) : Option (List Char) :=
  match l with
  | '<' :: rest => ggCapture rest
  | _ => none

/-- `process_googlegroups_dsn`: `.ok recipients` is a normal return,
`.error reason` models `save_message(reason)` + `sys.exit(0)`. -/
def process_googlegroups_dsn (msg : Msg) : Except String (List Rcpt) :=
  if msg.fromHeader ≠
      some "Mail Delivery Subsystem <mailer-daemon@googlemail.com>" then
    .ok []
  else if msg.xFailedRecipients = none then .ok []
  else if msg.references = none then .ok []
  else if msg.inReplyTo = none then .ok []
  else if msg.references ≠ msg.inReplyTo then .ok []
  else
    match msg.references with
    | none => .ok []
    | some refs =>
      match refExtract refs.toList with
      | none => .error "no_report_domain_in_references_header"
      | some g =>
        let report_domain := String.mk g
        if !(validators_domain report_domain) then .error "no_report_domain"
        else
          .ok [{ report_domain := some (some report_domain),
                 action := some "failed",
                 status := some (some "5.1.1"),
                 final_rcpt := msg.xFailedRecipients,
                 orig_rcpt := msg.xFailedRecipients }]

/-- Python `extension.replace("=", "@")`. -/
def replaceEqAt (s : String) : String :=
  String.mk (s.toList.map (fun c => if c = '=' then '@' else c))

/-- `\sSubmitter` (no colon — `RE_BODY_REPORT_DOMAIN` differs here from
`RE_SUBMITTER`) at the head of the list. -/
def wsSubAt (l : List Char) : Bool :=
  match l with
  | a :: 'S' :: 'u' :: 'b' :: 'm' :: 'i' :: 't' :: 't' :: 'e' :: 'r' :: _ =>
    isWS a
  | _ => false

/-- The group of `(.*)\sSubmitter.*$` within one line: everything before
the LAST `\sSubmitter` position (greedy `(.*)`). -/
def captureToLastWsSub : List Char → Option (List Char)
  | [] => none
  | c :: cs =>
    match captureToLastWsSub cs with
    | some r => some (c :: r)
    | none => if wsSubAt (c :: cs) then some [] else none

/-- The group captured by `RE_BODY_REPORT_DOMAIN`
(`^.*Report Domain:\s(.*)\sSubmitter.*$`) on one line: the greedy `^.*`
backtracks from the right, so the match uses the last `Report Domain:\s`
position after which a `\sSubmitter` still occurs, and the group runs to
the last such `\sSubmitter`. -/
def lineReportDomain : List Char → Option (List Char)
  | [] => none
  | c :: cs =>
    match lineReportDomain cs with
    | some r => some r
    | none =>
      if rdAt (c :: cs) then captureToLastWsSub ((c :: cs).drop 15)
      else none

/-- `re.search(RE_BODY_REPORT_DOMAIN, mail_data)` with `re.MULTILINE`:
since the pattern is anchored by `^`/`$` it matches within single lines,
and `re.search` returns the match in the earliest line.  The raw message
is modelled as its list of lines. -/
def bodyReportDomain : List String → Option (List Char)
  | [] => none
  | l :: ls =>
    match lineReportDomain l.toList with
    | some r => some r
    | none => bodyReportDomain ls

/-- `process_with_extension`: `.error reason` models
`save_message(reason)` + `sys.exit(0)`; `today` is the global `DATE`. -/
def process_with_extension (extension : String) (mailLines : List String)
    (today : String) : Except String (List Rcpt) :=
  let report_rcpt := replaceEqAt extension
  if !(validators_email report_rcpt) then
    .error "no_report_rcpt_in_extension"
  else
    match bodyReportDomain mailLines with
    | none => .error "no_report_domain_in_message"
    | some g =>
      let report_domain := String.mk g
      if !(validators_domain report_domain) then .error "no_report_domain"
      else
        .ok [{ report_domain := some (some report_domain),
               action := some "any_reason",
               orig_rcpt := some (replaceEqAt extension),
               date := some today }]

/-- The inner `for subpart in part.walk()` of the `message/delivery-status`
branch of `process_dsn`: build a record for every subpart carrying both an
`Action` and a `Final-Recipient` header, and abort the whole program
(`.error ()`, the `sys.exit(0)` of the source) when such a subpart has
action `delayed`. -/
def walkBlocks : List DsBlock → Except Unit (List Rcpt)
  | [] => .ok []
  | b :: bs =>
    match b.action, b.finalRecipient with
    | some act, some fr =>
      if act = "delayed" then .error ()
      else
        let frS := strip822 fr
        let orS := match b.originalRecipient with
          | some origValue => strip822 origValue
          | none => frS
        let r : Rcpt :=
          { action := some act,
            final_rcpt := some frS,
            orig_rcpt := some orS,
            diag_code := some (b.diagnosticCode.map unfold),
            status := some b.statusHeader }
        (walkBlocks bs).map (fun rs => r :: rs)
    | _, _ => walkBlocks bs

/-- The subject scan of the `message/rfc822` branch: keep the first
non-`None` `Subject` in subpart walk order, unfolded at assignment time. -/
def updateSubj (cur : Option String) : List (Option String) → Option String
  | [] => cur
  | s :: ss =>
    match cur, s with
    | none, some v => updateSubj (some (unfold v)) ss
    | _, _ => updateSubj cur ss

/-- The `for part in msg.walk()` loop of `process_dsn`: accumulate the
delivery-status records and the first original subject; `.error ()` is the
`sys.exit(0)` taken on a `delayed` action. -/
def walkParts : List MimePart → Option String → List Rcpt →
    Except Unit (Option String × List Rcpt)
  | [], subj, acc => .ok (subj, acc)
  | p :: ps, subj, acc =>
    match p with
    | .deliveryStatus blocks =>
      match walkBlocks blocks with
      | .error () => .error ()
      | .ok rs => walkParts ps subj (acc ++ rs)
    | .rfc822 subjects => walkParts ps (updateSubj subj subjects) acc
    | .rfc822headers s =>
      match subj, s with
      | none, some v => walkParts ps (some (unfold v)) acc
      | _, _ => walkParts ps subj acc
    | .other => walkParts ps subj acc

/-- Outcome of `process_dsn` (and, lifted, of the extension strategy):
`exit0` is the bare `sys.exit(0)` on a delayed delivery (nothing saved),
`saveExit reason` is `save_message(reason)` + `sys.exit(0)`, and
`records rs` a normal return of the extracted records. -/
inductive ProcResult where
  | exit0
  | saveExit (reason : String)
  | records (rs : List Rcpt)
deriving DecidableEq

/-- `process_dsn`: walk the parts, derive the report domain from the
original subject, fall back to the Google Groups strategy when the walk
produced no records, then stamp every record lacking a `report_domain`
key with the derived domain and every record with the processing date
(`today`, the global `DATE`). -/
def process_dsn (msg : Msg) (today : String) : ProcResult :=
  match walkParts msg.parts none [] with
  | .error () => .exit0
  | .ok (subj, recs) =>
    match get_report_domain_from_subject subj with
    | .error reason => .saveExit reason
    | .ok repDom =>
      match (if recs.isEmpty then process_googlegroups_dsn msg
             else .ok recs) with
      | .error reason => .saveExit reason
      | .ok recs2 =>
        .records (recs2.map (fun r =>
          let r1 := if r.report_domain = none then
              { r with report_domain := some repDom }
            else r
          { r1 with date := some today }))

/-- `dsn_detail_to_data_dir`: for each record, append it to the file of
its report domain when the domain is non-null, otherwise save the raw
message under `no_report_domain`.  The result collects the performed
appends as `(domain, record)` pairs and the save reasons, in order;
`.error ()` models the `KeyError` a record without a `report_domain` key
would raise. -/
def dsn_detail_to_data_dir : List Rcpt →
    Except Unit (List (String × Rcpt) × List String)
  | [] => .ok ([], [])
  | dsn :: rest =>
    match dsn.report_domain with
    | none => .error ()
    | some none =>
      (dsn_detail_to_data_dir rest).map
        (fun p => (p.1, "no_report_domain" :: p.2))
    | some (some d) =>
      (dsn_detail_to_data_dir rest).map
        (fun p => ((d, dsn) :: p.1, p.2))

/-- Result of one extractor run after argument validation: `crash` is an
unhandled Python exception; `done writes saves` is `sys.exit(0)` with the
performed domain-file appends and saved-message reasons. -/
inductive RunResult where
  | crash
  | done (writes : List (String × Rcpt)) (saves : List String)
deriving DecidableEq

/-- The extractor main flow after argument and directory validation.
`msg` is the `email.message_from_string` view of stdin and `mailLines`
the raw text of the same stdin as lines (used only by the extension
strategy, by the body regex); `today` is the global `DATE`. -/
def runExtractor (extension : String) (msg : Msg) (mailLines : List String)
    (today : String) : RunResult :=
  let details : ProcResult :=
    if extension ≠ "" then
      match process_with_extension extension mailLines today with
      | .error reason => .saveExit reason
      | .ok rs => .records rs
    else process_dsn msg today
  match details with
  | .exit0 => .done [] []
  | .saveExit reason => .done [] [reason]
  | .records rs =>
    if rs.isEmpty then .done [] ["no_dsn_details"]
    else
      match dsn_detail_to_data_dir rs with
      | .error () => .crash
      | .ok (w, s) => .done w s

/-- Outcome of the extractor argument handling. -/
inductive ArgResult where
  /-- usage error, `sys.exit(1)`. -/
  | exit1
  /-- unhandled `IndexError` from evaluating `sys.argv[3]`. -/
  | indexError
  | ok (queueId extension dataDir : String)
deriving DecidableEq

/-- The argument handling of the extractor main block, lines 292-302 of
`dmarc_dsn_processor.py`: after the `len(sys.argv) < 3` usage check, the
condition `len(sys.argv) > 2 and sys.argv[3] is not None` is evaluated;
`sys.argv` entries are strings and never `None`. -/
def resolveArgs (argv : List String) (envDataDir : Option String) :
    ArgResult :=
  if argv.length < 3 then .exit1
  else
    let queueId := argv.getD 1 ""
    let extension := argv.getD 2 ""
    if argv.length > 2 then
      match argv.get? 3 with
      | none => .indexError
      | some d => .ok queueId extension d
    else .ok queueId extension (envDataDir.getD "./dmarc_dsn_processor")

/-! ## Claim theorems -/

/-- The single-record domain-log line of the builder example in the spec. -/
def jsonRecordLine : String :=
  "\x7b\"orig_rcpt\":\"a@b.com\",\"date\":\"20240101\",\"report_domain\":\"example.org\"\x7d"

/-- The same record with a `null` date. -/
def jsonRecordLineNullDate : String :=
  "\x7b\"orig_rcpt\":\"a@b.com\",\"date\":null,\"report_domain\":\"example.org\"\x7d"

/-- C8: for every value of `MIN_AGE`, the builder exits with code 1 before
scanning any file whenever the value does not parse as an integer or lies
outside `[0, 90]`; in particular `-1`, `91` and `abc` each cause exit 1,
and an unset `MIN_AGE` behaves as the default `30`. -/
theorem c8_minage_validation :
    (∀ entries : List DirEntry,
       buildTable (some "-1") entries = .exit1 ∧
       buildTable (some "91") entries = .exit1 ∧
       buildTable (some "abc") entries = .exit1 ∧
       buildTable none entries = buildTable (some "30") entries) ∧
    (∀ (s : String) (entries : List DirEntry), parseIntStr s = none →
       buildTable (some s) entries = .exit1) ∧
    (∀ (s : String) (n : Int) (entries : List DirEntry),
       parseIntStr s = some n → (n < 0 ∨ 90 < n) →
       buildTable (some s) entries = .exit1) := by
  refine ⟨fun entries => ⟨rfl, rfl, rfl, rfl⟩, ?_, ?_⟩
  · intro s entries h
    simp [buildTable, h]
  · intro s n entries h hout
    simp only [buildTable, Option.getD, h]
    rcases hout with hneg | hbig
    · rw [if_pos hneg]
    · rw [if_neg (by omega), if_pos hbig]

/-- Witness for `c8_minage_validation` at concrete inputs. -/
theorem c8_minage_validation_witness :
    buildTable (some "7a") [] = .exit1 ∧
    buildTable (some "100") [] = .exit1 ∧
    buildTable (some "-5") [] = .exit1 :=
  ⟨c8_minage_validation.2.1 "7a" [] rfl,
   c8_minage_validation.2.2 "100" 100 [] rfl (Or.inr (by decide)),
   c8_minage_validation.2.2 "-5" (-5) [] rfl (Or.inl (by decide))⟩

/-- Counterexample to C1 as stated: a regular file 40 days old, hence
older than the `MIN_AGE` threshold 30, whose only record is the example
record; the claim demands one emitted line for it, but the builder emits
none (the source processes a file only when `age.days < MIN_AGE`). -/
theorem c1_counterexample :
    buildTable (some "30")
      [⟨"example.org", true, 40, [jsonRecordLine]⟩] = .output [] none ∧
    (30 : Int) < 40 :=
  ⟨rfl, by decide⟩

/-- C1 amended: the builder emits a table line for a regular file if and
only if the age of the file in days is strictly BELOW the `MIN_AGE` threshold
(not above it); for a file younger than the threshold the emitted line is
the `handle_dsn` line of its content. -/
theorem c1_amended (e : DirEntry) (menv : String) (n : Int) (line : String)
    (hp : parseIntStr menv = some n) (h0 : 0 ≤ n) (h90 : n ≤ 90)
    (hf : e.isFile = true)
    (hline : handle_dsn e.name e.content = .ok line) :
    buildTable (some menv) [e] =
      .output (if e.ageDays < n then [line] else []) none := by
  simp only [buildTable, Option.getD, hp]
  rw [if_neg (by omega), if_neg (by omega)]
  by_cases hc : e.ageDays < n
  · simp [runFiles, hf, hc, hline]
  · simp [runFiles, hf, hc]

/-- Witness for `c1_amended`: a file 5 days old with the example record
produces exactly one line, and that line contains `a@b.com` and
`example.org`. -/
theorem c1_amended_witness :
    buildTable (some "30") [⟨"example.org", true, 5, [jsonRecordLine]⟩] =
      .output
        ["a@b.com discard:report for example.org bounced 20240101 last time"]
        none ∧
    List.IsInfix "a@b.com".toList
      "a@b.com discard:report for example.org bounced 20240101 last time".toList ∧
    List.IsInfix "example.org".toList
      "a@b.com discard:report for example.org bounced 20240101 last time".toList := by
  refine ⟨?_, by decide, by decide⟩
  have h := c1_amended ⟨"example.org", true, 5, [jsonRecordLine]⟩ "30" 30
    "a@b.com discard:report for example.org bounced 20240101 last time"
    rfl (by decide) (by decide) rfl rfl
  rw [if_pos (by decide)] at h
  exact h

/-- Counterexample to C9 as stated: the builder line for the example
record reads `discard:report` (lower case, no space after the colon), not
the claimed `DISCARD: report`. -/
theorem c9_counterexample :
    handle_dsn "example.org" [jsonRecordLine] =
      .ok "a@b.com discard:report for example.org bounced 20240101 last time" ∧
    ¬ List.IsInfix "DISCARD: report".toList
      "a@b.com discard:report for example.org bounced 20240101 last time".toList ∧
    "a@b.com discard:report for example.org bounced 20240101 last time" ≠
      "a@b.com DISCARD: report for example.org bounced 20240101 last time" :=
  ⟨rfl, by decide, by decide⟩

/-- C9 amended: for every qualifying domain-log file, the output
line of the builder is determined solely by the final line of the file parsed as one JSON
record (all earlier lines are ignored), and has the form
`<orig_rcpt> discard:report for <domain> bounced <date> last time` (lower
case `discard:`, no space after the colon), `<domain>` being the file name
and a null date rendering as the literal `unknown`. -/
theorem c9_amended :
    (∀ (name : String) (c1 c2 : List String), lastLine c1 = lastLine c2 →
       handle_dsn name c1 = handle_dsn name c2) ∧
    (∀ (name : String) (content : List String) (line : String)
       (obj : List (String × Option String)) (dateV : Option String)
       (orig : String),
       lastLine content = some line → jsonLoads line = some obj →
       lookupLast obj "date" = some dateV →
       lookupLast obj "orig_rcpt" = some (some orig) →
       handle_dsn name content =
         .ok (orig ++ " discard:report for " ++ name ++ " bounced " ++
              dateV.getD "unknown" ++ " last time")) := by
  constructor
  · intro name c1 c2 h
    simp only [handle_dsn, h]
  · intro name content line obj dateV orig h1 h2 h3 h4
    simp only [handle_dsn, h1, h2, h3, h4]
    cases dateV <;> rfl

/-- Witness for `c9_amended`: two files sharing a final line (one with an
extra earlier line that is ignored) give the same output, and a record
with a null date renders `unknown`. -/
theorem c9_amended_witness :
    handle_dsn "example.org" ["ignored earlier line", jsonRecordLineNullDate] =
      handle_dsn "example.org" [jsonRecordLineNullDate] ∧
    handle_dsn "example.org" [jsonRecordLineNullDate] =
      .ok "a@b.com discard:report for example.org bounced unknown last time" := by
  constructor
  · exact c9_amended.1 "example.org" _ _ rfl
  · have h := c9_amended.2 "example.org" [jsonRecordLineNullDate]
      jsonRecordLineNullDate
      [("orig_rcpt", some "a@b.com"), ("date", none),
       ("report_domain", some "example.org")]
      none "a@b.com" rfl rfl rfl rfl
    exact h

/-- C10: a qualifying but empty domain-log file makes `handle_dsn` call
`json.loads(None)`, an unhandled `TypeError`; the builder emits no line
for that file and processes no subsequent file. -/
theorem c10_empty_file :
    (∀ name : String, handle_dsn name [] = .error .typeErr) ∧
    (∀ (n : Int) (e : DirEntry) (es : List DirEntry),
       e.isFile = true → e.ageDays < n → e.content = [] →
       runFiles n (e :: es) = ([], some .typeErr)) := by
  constructor
  · intro name
    rfl
  · intro n e es hf hage hc
    simp only [runFiles, hf, if_pos rfl, if_pos hage, hc]
    rfl

/-- Witness for `c10_empty_file`: an empty 0-day-old file aborts the scan
even though a later perfectly fine file exists. -/
theorem c10_empty_file_witness :
    runFiles 30 [⟨"empty.example", true, 0, []⟩,
                 ⟨"example.org", true, 0, [jsonRecordLine]⟩] =
      ([], some .typeErr) :=
  c10_empty_file.2 30 ⟨"empty.example", true, 0, []⟩
    [⟨"example.org", true, 0, [jsonRecordLine]⟩] rfl (by decide) rfl

/-- C3 is a code bug: called with exactly two positional arguments
(`argv = [prog, queue_id, extension]`), the guard
`len(sys.argv) > 2 and sys.argv[3] is not None` evaluates `sys.argv[3]`
and raises an unhandled `IndexError` instead of falling back to
`ENV[DATA_DIR]` as the docstring and the claim describe. -/
theorem c3_argv_indexerror :
    resolveArgs ["prog", "queue1", "ext1"] (some "/srv/dmarc") =
      .indexError ∧
    resolveArgs ["prog", "queue1", "ext1"] (some "/srv/dmarc") ≠
      .ok "queue1" "ext1" "/srv/dmarc" ∧
    resolveArgs ["prog", "queue1", "ext1", "/other"] none =
      .ok "queue1" "ext1" "/other" := by
  refine ⟨rfl, by decide, rfl⟩

/-- Counterexample to C2 as stated: a batch holding one record with a
valid report domain and one with a null report domain.  The claim says no
record of such a batch is appended; the writer nevertheless appends the
valid record (partial success) while saving the message for the null one. -/
theorem c2_counterexample :
    dsn_detail_to_data_dir
      [{ report_domain := some (some "example.org"), orig_rcpt := some "v@x.org" },
       { report_domain := some none, orig_rcpt := some "n@x.org" }] =
      .ok ([("example.org",
             { report_domain := some (some "example.org"),
               orig_rcpt := some "v@x.org" })],
           ["no_report_domain"]) ∧
    [("example.org",
      { report_domain := some (some "example.org"),
        orig_rcpt := some "v@x.org" : Rcpt })] ≠ [] :=
  ⟨rfl, by decide⟩

/-- C2 amended: the domain-log writer handles each record of the batch
independently: every record with a non-null `report_domain` is appended to
the file of that domain, and every record with a null `report_domain` triggers
one save of the raw message under `no_report_domain`; a null-domain record
does not prevent the other records of the same batch from being written
(partial success occurs). -/
theorem c2_amended (batch : List Rcpt)
    (h : ∀ r ∈ batch, r.report_domain ≠ none) :
    dsn_detail_to_data_dir batch =
      .ok (batch.filterMap (fun r =>
             match r.report_domain with
             | some (some d) => some (d, r)
             | _ => none),
           batch.filterMap (fun r =>
             match r.report_domain with
             | some none => some "no_report_domain"
             | _ => none)) := by
  induction batch with
  | nil => rfl
  | cons r rest ih =>
    have hr : r.report_domain ≠ none := h r (by simp)
    have hrest : ∀ x ∈ rest, x.report_domain ≠ none :=
      fun x hx => h x (by simp [hx])
    match hrd : r.report_domain with
    | none => exact absurd hrd hr
    | some none =>
      simp only [dsn_detail_to_data_dir, hrd, ih hrest, Except.map,
        List.filterMap_cons]
    | some (some d) =>
      simp only [dsn_detail_to_data_dir, hrd, ih hrest, Except.map,
        List.filterMap_cons]

/-- Witness for `c2_amended` at the two-record batch of the
counterexample. -/
theorem c2_amended_witness :
    dsn_detail_to_data_dir
      [{ report_domain := some (some "example.org"), orig_rcpt := some "v@x.org" },
       { report_domain := some none, orig_rcpt := some "n@x.org" }] =
      .ok ([("example.org",
             { report_domain := some (some "example.org"),
               orig_rcpt := some "v@x.org" })],
           ["no_report_domain"]) := by
  have h := c2_amended
    [{ report_domain := some (some "example.org"), orig_rcpt := some "v@x.org" },
     { report_domain := some none, orig_rcpt := some "n@x.org" }]
    (by intro r hr; fin_cases hr <;> decide)
  simpa using h

/-- A delivery-status subpart that carries both an `Action` equal to
`delayed` and a `Final-Recipient`. -/
def blockDelayed (b : DsBlock) : Bool :=
  b.action = some "delayed" && b.finalRecipient.isSome

/-- A MIME part containing a delayed delivery-status subpart. -/
def partDelayed : MimePart → Bool
  | .deliveryStatus blocks => blocks.any blockDelayed
  | _ => false

/-- The message contains, in some `message/delivery-status` part, a
subpart with `Action: delayed` and a `Final-Recipient`. -/
def hasDelayedBlock (msg : Msg) : Bool :=
  msg.parts.any partDelayed

theorem walkBlocks_delayed (blocks : List DsBlock)
    (h : blocks.any blockDelayed = true) : walkBlocks blocks = .error () := by
  induction blocks with
  | nil => simp at h
  | cons b bs ih =>
    rw [List.any_cons] at h
    by_cases hb : blockDelayed b = true
    · rcases ha : b.action with _ | act
      · rw [blockDelayed, ha] at hb
        simp at hb
      · rcases hfr : b.finalRecipient with _ | fr
        · rw [blockDelayed, hfr] at hb
          simp at hb
        · have hact : act = "delayed" := by
            rw [blockDelayed, ha] at hb
            have := of_decide_eq_true (Bool.and_elim_left hb)
            exact Option.some.inj this
          simp [walkBlocks, ha, hfr, hact]
    · have hbs : bs.any blockDelayed = true := by
        rcases Bool.or_eq_true_iff.mp h with h1 | h2
        · exact absurd h1 hb
        · exact h2
      rcases ha : b.action with _ | act
      · simpa only [walkBlocks, ha] using ih hbs
      · rcases hfr : b.finalRecipient with _ | fr
        · simpa only [walkBlocks, ha, hfr] using ih hbs
        · have hact : ¬ act = "delayed" := by
            intro he
            rw [blockDelayed, ha, hfr, he] at hb
            simp at hb
          simp only [walkBlocks, ha, hfr, if_neg hact, ih hbs, Except.map]

theorem walkParts_delayed (ps : List MimePart) :
    ∀ (subj : Option String) (acc : List Rcpt),
      ps.any partDelayed = true → walkParts ps subj acc = .error () := by
  induction ps with
  | nil => intro subj acc h; simp at h
  | cons p rest ih =>
    intro subj acc h
    rw [List.any_cons] at h
    by_cases hp : partDelayed p = true
    · match p with
      | .deliveryStatus blocks =>
        have : blocks.any blockDelayed = true := by
          rwa [partDelayed] at hp
        simp only [walkParts, walkBlocks_delayed blocks this]
      | .rfc822 subjects => simp [partDelayed] at hp
      | .rfc822headers s => simp [partDelayed] at hp
      | .other => simp [partDelayed] at hp
    · have hrest : rest.any partDelayed = true := by
        rcases Bool.or_eq_true_iff.mp h with h1 | h2
        · exact absurd h1 hp
        · exact h2
      match p with
      | .deliveryStatus blocks =>
        simp only [walkParts]
        match hwb : walkBlocks blocks with
        | .error () => rfl
        | .ok rs => exact ih _ _ hrest
      | .rfc822 subjects => simpa only [walkParts] using ih _ _ hrest
      | .rfc822headers s =>
        simp only [walkParts]
        match subj, s with
        | none, some v => exact ih _ _ hrest
        | none, none => exact ih _ _ hrest
        | some u, _ => exact ih _ _ hrest
      | .other => simpa only [walkParts] using ih _ _ hrest

/-- C4: a message containing a `message/delivery-status` subpart whose
`Action` equals `delayed` (together with a `Final-Recipient`) makes the
extractor terminate immediately with zero records written to any domain
file and zero saved-message files, whatever other MIME parts are present
(the standard strategy, i.e. an empty extension token, being in effect). -/
theorem c4_delayed (msg : Msg) (mailLines : List String) (today : String)
    (h : hasDelayedBlock msg = true) :
    runExtractor "" msg mailLines today = .done [] [] := by
  have hw : walkParts msg.parts none [] = .error () :=
    walkParts_delayed msg.parts none [] h
  simp only [runExtractor, ne_eq, not_true_eq_false, if_false, process_dsn, hw]

/-- Witness for `c4_delayed`: a message with an ordinary failed subpart, a
delayed subpart and a subject-bearing part produces nothing at all. -/
theorem c4_delayed_witness :
    runExtractor ""
      ⟨[.other,
        .rfc822 [some "Report Domain: example.org Submitter: x"],
        .deliveryStatus
          [⟨some "failed", some "rfc822; a@b.org", none, none, none⟩,
           ⟨some "delayed", some "rfc822; a@b.org", none, none, none⟩]],
        none, none, none, none⟩
      [] "20240101" = .done [] [] :=
  c4_delayed _ [] "20240101" (by decide)

/-- C6: with a non-empty extension token, the extractor substitutes `@`
for `=` in the token; an invalid recovered address causes a save under
`no_report_rcpt_in_extension` and exit 0 with nothing written; a valid
address together with a body line matching the
`Report Domain: <domain> Submitter` pattern capturing a valid domain
yields exactly one written record with `action = any_reason`, `orig_rcpt`
the recovered address and no diagnostic or status fields. -/
theorem c6_extension :
    (∀ (ext : String) (msg : Msg) (mail : List String) (today : String),
       ext ≠ "" → validators_email (replaceEqAt ext) = false →
       runExtractor ext msg mail today =
         .done [] ["no_report_rcpt_in_extension"]) ∧
    (∀ (ext : String) (msg : Msg) (mail : List String) (today : String)
       (g : List Char),
       ext ≠ "" → validators_email (replaceEqAt ext) = true →
       bodyReportDomain mail = some g →
       validators_domain (String.mk g) = true →
       runExtractor ext msg mail today =
         .done [(String.mk g,
                 { report_domain := some (some (String.mk g)),
                   action := some "any_reason",
                   orig_rcpt := some (replaceEqAt ext),
                   date := some today })] []) := by
  constructor
  · intro ext msg mail today hext hval
    simp [runExtractor, if_pos hext, process_with_extension, hval]
  · intro ext msg mail today g hext hval hbody hdom
    simp [runExtractor, if_pos hext, process_with_extension, hval, hbody,
      hdom, dsn_detail_to_data_dir, Except.map]

/-- Witness for `c6_extension`: the token `user=nodomain` recovers an
invalid address and is rejected; the token `user=example.com` together
with a matching body line yields the single `any_reason` record. -/
theorem c6_extension_witness :
    runExtractor "user=nodomain" ⟨[], none, none, none, none⟩ [] "20240101" =
      .done [] ["no_report_rcpt_in_extension"] ∧
    runExtractor "user=example.com" ⟨[], none, none, none, none⟩
      ["Report Domain: example.org Submitter: x"] "20240101" =
      .done [("example.org",
              { report_domain := some (some "example.org"),
                action := some "any_reason",
                orig_rcpt := some "user@example.com",
                date := some "20240101" })] [] := by
  constructor
  · exact c6_extension.1 "user=nodomain" ⟨[], none, none, none, none⟩ []
      "20240101" (by decide) (by decide)
  · have h := c6_extension.2 "user=example.com" ⟨[], none, none, none, none⟩
      ["Report Domain: example.org Submitter: x"] "20240101"
      "example.org".toList (by decide) (by decide) (by decide) (by decide)
    simpa using h

/-- The Google Groups mailer-daemon identity the source compares against. -/
def ggFromIdent : String :=
  "Mail Delivery Subsystem <mailer-daemon@googlemail.com>"

/-- C7: the Google-Groups fallback produces records only when every
precondition holds — it yields zero records whenever the `From` header
differs from the Google Groups mailer-daemon identity, or any of
`X-Failed-Recipients`, `References`, `In-Reply-To` is absent, or
`References` differs from `In-Reply-To`; when the `From` header equals
the Google Groups identity, the three headers are present, `References`
equals `In-Reply-To` and the references pattern captures a valid domain,
it synthesizes exactly one record with `action = failed`,
`status = 5.1.1` and `orig_rcpt = final_rcpt = X-Failed-Recipients`; and
the fallback is consulted only when the delivery-status walk produced
zero records — with a non-empty walk the result of `process_dsn` does not
depend on the headers the fallback reads. -/
theorem c7_googlegroups :
    (∀ msg : Msg,
       msg.fromHeader ≠ some ggFromIdent ∨
       msg.xFailedRecipients = none ∨
       msg.references = none ∨
       msg.inReplyTo = none ∨
       msg.references ≠ msg.inReplyTo →
       process_googlegroups_dsn msg = .ok []) ∧
    (∀ (msg : Msg) (x refs : String) (g : List Char),
       msg.fromHeader = some ggFromIdent →
       msg.xFailedRecipients = some x →
       msg.references = some refs →
       msg.inReplyTo = some refs →
       refExtract refs.toList = some g →
       validators_domain (String.mk g) = true →
       process_googlegroups_dsn msg =
         .ok [{ report_domain := some (some (String.mk g)),
                action := some "failed",
                status := some (some "5.1.1"),
                final_rcpt := some x,
                orig_rcpt := some x }]) ∧
    (∀ (msg msg2 : Msg) (today : String) (subj : Option String)
       (recs : List Rcpt),
       msg.parts = msg2.parts →
       walkParts msg.parts none [] = .ok (subj, recs) → recs ≠ [] →
       process_dsn msg today = process_dsn msg2 today) := by
  refine ⟨?_, ?_, ?_⟩
  · intro msg h
    simp only [ggFromIdent] at h
    rw [process_googlegroups_dsn]
    by_cases h1 : msg.fromHeader ≠
        some "Mail Delivery Subsystem <mailer-daemon@googlemail.com>"
    · rw [if_pos h1]
    · rw [if_neg h1]
      by_cases h2 : msg.xFailedRecipients = none
      · rw [if_pos h2]
      · rw [if_neg h2]
        by_cases h3 : msg.references = none
        · rw [if_pos h3]
        · rw [if_neg h3]
          by_cases h4 : msg.inReplyTo = none
          · rw [if_pos h4]
          · rw [if_neg h4]
            by_cases h5 : msg.references ≠ msg.inReplyTo
            · rw [if_pos h5]
            · rcases h with h | h | h | h | h
              · exact absurd h h1
              · exact absurd h h2
              · exact absurd h h3
              · exact absurd h h4
              · exact absurd h h5
  · intro msg x refs g h1 h2 h3 h4 h5 h6
    have h5d : refExtract refs.data = some g := h5
    simp [process_googlegroups_dsn, ggFromIdent, h1, h2, h3, h4, h5d, h6]
  · intro msg msg2 today subj recs hparts hw hne
    have hw2 : walkParts msg2.parts none [] = .ok (subj, recs) := by
      rw [← hparts]
      exact hw
    have hie : recs.isEmpty = false := by
      simpa [List.isEmpty_iff] using hne
    simp only [process_dsn, hw, hw2, hie, Bool.false_eq_true, if_false]

/-- Witness for `c7_googlegroups`: a mismatched `References`/`In-Reply-To`,
a wrong `From` header, a missing `X-Failed-Recipients` and absent
reference headers each yield zero records; the matching headers yield
the single synthesized record; and with a non-empty delivery-status walk
the Google Groups headers do not change the outcome. -/
theorem c7_googlegroups_witness :
    process_googlegroups_dsn
      ⟨[], some ggFromIdent, some "x@fail.org",
        some "<example.org-1@b.c>", some "<example.org-2@b.c>"⟩ = .ok [] ∧
    process_googlegroups_dsn
      ⟨[], some "Someone Else <mailer-daemon@example.net>", some "x@fail.org",
        some "<example.org-1@b.c>", some "<example.org-1@b.c>"⟩ = .ok [] ∧
    process_googlegroups_dsn
      ⟨[], some ggFromIdent, none,
        some "<example.org-1@b.c>", some "<example.org-1@b.c>"⟩ = .ok [] ∧
    process_googlegroups_dsn
      ⟨[], some ggFromIdent, some "x@fail.org", none, none⟩ = .ok [] ∧
    process_googlegroups_dsn
      ⟨[], some ggFromIdent, some "x@fail.org",
        some "<example.org-123@x.y>", some "<example.org-123@x.y>"⟩ =
      .ok [{ report_domain := some (some "example.org"),
             action := some "failed",
             status := some (some "5.1.1"),
             final_rcpt := some "x@fail.org",
             orig_rcpt := some "x@fail.org" }] ∧
    process_dsn
      ⟨[.deliveryStatus
          [⟨some "failed", some "rfc822; r@c.com", none, none, none⟩],
        .rfc822 [some "Report Domain: example.org Submitter: x"]],
        none, none, none, none⟩ "20240101" =
    process_dsn
      ⟨[.deliveryStatus
          [⟨some "failed", some "rfc822; r@c.com", none, none, none⟩],
        .rfc822 [some "Report Domain: example.org Submitter: x"]],
        some ggFromIdent, some "y@fail.org",
        some "<other.example-9@q.r>", some "<other.example-9@q.r>"⟩
      "20240101" := by
  refine ⟨?_, ?_, ?_, ?_, ?_, ?_⟩
  · exact c7_googlegroups.1 _ (Or.inr (Or.inr (Or.inr (Or.inr (by decide)))))
  · exact c7_googlegroups.1 _ (Or.inl (by decide))
  · exact c7_googlegroups.1 _ (Or.inr (Or.inl rfl))
  · exact c7_googlegroups.1 _ (Or.inr (Or.inr (Or.inl rfl)))
  · have h := c7_googlegroups.2.1
      ⟨[], some ggFromIdent, some "x@fail.org",
        some "<example.org-123@x.y>", some "<example.org-123@x.y>"⟩
      "x@fail.org" "<example.org-123@x.y>" "example.org".toList
      rfl rfl rfl rfl (by decide) (by decide)
    simpa using h
  · exact c7_googlegroups.2.2 _ _ "20240101"
      (some (unfold "Report Domain: example.org Submitter: x"))
      [{ action := some "failed", final_rcpt := some (strip822 "rfc822; r@c.com"),
         orig_rcpt := some (strip822 "rfc822; r@c.com"),
         diag_code := some none, status := some none }]
      rfl (by decide) (by decide)

/-- The subject fragment of the example in the spec. -/
def rdFragStr : String := "Report Domain: example.org Submitter: x"

/-- No position of the list starts a `Report Domain:\s` match. -/
def rdFree : List Char → Bool
  | [] => true
  | c :: cs => !rdAt (c :: cs) && rdFree cs

theorem rdFree_stripRDAux : ∀ l : List Char, rdFree l = true →
    stripRDAux l = none := by
  intro l
  induction l with
  | nil => intro h; rfl
  | cons c cs ih =>
    intro h
    rw [rdFree, Bool.and_eq_true] at h
    simp only [stripRDAux, ih h.2]
    rw [if_neg]
    simp only [Bool.not_eq_true'] at h
    simp [h.1]

theorem stripRDAux_append_some (p : List Char) {l r : List Char}
    (h : stripRDAux l = some r) : stripRDAux (p ++ l) = some r := by
  induction p with
  | nil => simpa using h
  | cons c p' ih =>
    rw [List.cons_append]
    simp only [stripRDAux, ih]

theorem stripRDAux_cons (c : Char) (cs : List Char) :
    stripRDAux (c :: cs) =
      match stripRDAux cs with
      | some r => some r
      | none => if rdAt (c :: cs) then some ((c :: cs).drop 15) else none :=
  rfl

theorem stripRDAux_frag (t : List Char)
    (hfree : rdFree (rdFragStr.toList.drop 1 ++ t) = true) :
    stripRDAux (rdFragStr.toList ++ t) =
      some ("example.org Submitter: x".toList ++ t) := by
  have hd : rdFragStr.toList =
      'R' :: "eport Domain: example.org Submitter: x".toList := rfl
  have hdrop : rdFragStr.toList.drop 1 =
      "eport Domain: example.org Submitter: x".toList := rfl
  rw [hdrop] at hfree
  have hnone :=
    rdFree_stripRDAux ("eport Domain: example.org Submitter: x".toList ++ t)
      hfree
  rw [hd, List.cons_append, stripRDAux_cons, hnone]
  rfl

theorem grdfs_frag (s : String) (p t : List Char)
    (hs : s.toList = p ++ (rdFragStr.toList ++ t))
    (hfree : rdFree (rdFragStr.toList.drop 1 ++ t) = true) :
    get_report_domain_from_subject (some s) = .ok (some "example.org") := by
  have hstrip : stripSub (stripRD s.toList) = "example.org".toList := by
    rw [hs, stripRD, stripRDAux_append_some p (stripRDAux_frag t hfree)]
    rw [Option.getD_some, stripSub]
    rw [show stripSubAux ("example.org Submitter: x".toList ++ t) =
      some "example.org".toList from rfl]
    rfl
  have hmk : String.mk (stripSub (stripRD s.toList)) = "example.org" := by
    rw [hstrip]
    rfl
  have hlen : s.toList.length = p.length + (39 + t.length) := by
    rw [hs]
    simp only [List.length_append]
    rw [show rdFragStr.toList.length = 39 from rfl]
  have hne : ¬ (s = "example.org") := by
    intro he
    have h11 : s.toList.length = 11 := by rw [he]; rfl
    omega
  simp only [get_report_domain_from_subject]
  rw [hmk, if_neg hne]
  rw [if_neg (by rw [show validators_domain "example.org" = true from by decide]; simp)]

theorem walkBlocks_rd_none (blocks : List DsBlock) :
    ∀ rs : List Rcpt, walkBlocks blocks = .ok rs →
      ∀ r ∈ rs, r.report_domain = none := by
  induction blocks with
  | nil =>
    intro rs h r hr
    simp only [walkBlocks] at h
    cases h
    simp at hr
  | cons b bs ih =>
    intro rs h r hr
    obtain ⟨ba, bf, bo, bdg, bst⟩ := b
    rcases ba with _ | act <;> rcases bf with _ | fr <;>
      simp only [walkBlocks] at h
    · exact ih rs h r hr
    · exact ih rs h r hr
    · exact ih rs h r hr
    · by_cases hd : act = "delayed"
      · rw [if_pos hd] at h
        cases h
      · rw [if_neg hd] at h
        rcases hwb : walkBlocks bs with e | rs' <;> rw [hwb] at h
        · simp [Except.map] at h
        · simp only [Except.map] at h
          cases h
          rcases List.mem_cons.mp hr with h1 | h2
          · rw [h1]
          · exact ih rs' hwb r h2

theorem walkParts_rd_none (ps : List MimePart) :
    ∀ (subj : Option String) (acc : List Rcpt) (sr : Option String)
      (recs : List Rcpt),
      walkParts ps subj acc = .ok (sr, recs) →
      (∀ r ∈ acc, r.report_domain = none) →
      ∀ r ∈ recs, r.report_domain = none := by
  induction ps with
  | nil =>
    intro subj acc sr recs h hacc
    simp only [walkParts] at h
    cases h
    exact hacc
  | cons pt rest ih =>
    intro subj acc sr recs h hacc
    match pt with
    | .deliveryStatus blocks =>
      rw [walkParts] at h
      rcases hwb : walkBlocks blocks with e | rs
      · rw [hwb] at h
        cases h
      · rw [hwb] at h
        refine ih _ _ _ _ h ?_
        intro r hr
        rcases List.mem_append.mp hr with h1 | h2
        · exact hacc r h1
        · exact walkBlocks_rd_none blocks rs hwb r h2
    | .rfc822 subjects =>
      rw [walkParts] at h
      exact ih _ _ _ _ h hacc
    | .rfc822headers sv =>
      rcases subj with _ | u <;> rcases sv with _ | v <;>
        simp only [walkParts] at h <;>
        exact ih _ _ _ _ h hacc
    | .other =>
      rw [walkParts] at h
      exact ih _ _ _ _ h hacc

/-- Counterexample to C5 as stated: a message whose embedded subject
CONTAINS `Report Domain: example.org Submitter: x` but carries a second
`Report Domain:` fragment after it.  The greedy `^.*Report Domain:\s`
regex strips through the LAST occurrence, so the produced record carries
`evil.com`, not `example.org`. -/
theorem c5_counterexample :
    process_dsn
      ⟨[.deliveryStatus
          [⟨some "failed", some "rfc822; r@c.com", none, none, some "5.0.0"⟩],
        .rfc822 [some ("Report Domain: example.org Submitter: x " ++
                       "Report Domain: evil.com Submitter: y")]],
        none, none, none, none⟩ "20240101" =
      .records [{ action := some "failed",
                  final_rcpt := some "r@c.com",
                  orig_rcpt := some "r@c.com",
                  diag_code := some none,
                  status := some (some "5.0.0"),
                  report_domain := some (some "evil.com"),
                  date := some "20240101" }] ∧
    List.IsInfix rdFragStr.toList
      ("Report Domain: example.org Submitter: x " ++
       "Report Domain: evil.com Submitter: y").toList ∧
    "evil.com" ≠ "example.org" := by
  refine ⟨by decide, by decide, by decide⟩

/-- C5 amended: in the standard delivery-status strategy (empty extension,
walk-produced records), if the first original subject found contains
`Report Domain: example.org Submitter: x` and no further
`Report Domain:` + whitespace occurrence starts after the start of that fragment;
every produced record then carries `report_domain = example.org`; and
if the two stripping regexes leave the subject unchanged, the raw message
is saved under `no_subject_re_match`, zero domain records are written and
the process exits 0. -/
theorem c5_subject_domain :
    (∀ (msg : Msg) (today s : String) (recs : List Rcpt) (p t : List Char),
       walkParts msg.parts none [] = .ok (some s, recs) →
       recs ≠ [] →
       s.toList = p ++ (rdFragStr.toList ++ t) →
       rdFree (rdFragStr.toList.drop 1 ++ t) = true →
       process_dsn msg today =
         .records (recs.map (fun r =>
           { r with report_domain := some (some "example.org"),
                    date := some today })) ∧
       ∀ rr ∈ recs.map (fun r =>
           { r with report_domain := some (some "example.org"),
                    date := some today }),
         rr.report_domain = some (some "example.org")) ∧
    (∀ (msg : Msg) (mailLines : List String) (today s : String)
       (recs : List Rcpt),
       walkParts msg.parts none [] = .ok (some s, recs) →
       String.mk (stripSub (stripRD s.toList)) = s →
       runExtractor "" msg mailLines today =
         .done [] ["no_subject_re_match"]) := by
  constructor
  · intro msg today s recs p t hw hne hs hfree
    have hrdnone :=
      walkParts_rd_none msg.parts none [] (some s) recs hw (by simp)
    have hie : recs.isEmpty = false := by
      simpa [List.isEmpty_iff] using hne
    constructor
    · simp only [process_dsn, hw, grdfs_frag s p t hs hfree, hie,
        Bool.false_eq_true, if_false]
      congr 1
      apply List.map_congr_left
      intro r hr
      simp [hrdnone r hr]
    · intro rr hrr
      rcases List.mem_map.mp hrr with ⟨r, hr, hre⟩
      rw [← hre]
  · intro msg mailLines today s recs hw hfix
    have h1 : get_report_domain_from_subject (some s) =
        .error "no_subject_re_match" := by
      simp only [get_report_domain_from_subject]
      rw [if_pos hfix.symm]
    simp [runExtractor, process_dsn, hw, h1]

/-- Witness for `c5_subject_domain`: a message whose subject is exactly
the fragment stamps its record with `example.org`; a message whose
subject the regexes do not change is saved under `no_subject_re_match`. -/
theorem c5_subject_domain_witness :
    process_dsn
      ⟨[.deliveryStatus
          [⟨some "failed", some "rfc822; r@c.com", none, none, some "5.0.0"⟩],
        .rfc822 [some "Report Domain: example.org Submitter: x"]],
        none, none, none, none⟩ "20240101" =
      .records [{ action := some "failed",
                  final_rcpt := some "r@c.com",
                  orig_rcpt := some "r@c.com",
                  diag_code := some none,
                  status := some (some "5.0.0"),
                  report_domain := some (some "example.org"),
                  date := some "20240101" }] ∧
    runExtractor ""
      ⟨[.deliveryStatus
          [⟨some "failed", some "a@b.org", none, none, none⟩],
        .rfc822 [some "hello world"]],
        none, none, none, none⟩ [] "20240101" =
      .done [] ["no_subject_re_match"] := by
  constructor
  · have h := (c5_subject_domain.1
      ⟨[.deliveryStatus
          [⟨some "failed", some "rfc822; r@c.com", none, none, some "5.0.0"⟩],
        .rfc822 [some "Report Domain: example.org Submitter: x"]],
        none, none, none, none⟩
      "20240101" "Report Domain: example.org Submitter: x"
      [{ action := some "failed",
         final_rcpt := some "r@c.com",
         orig_rcpt := some "r@c.com",
         diag_code := some none,
         status := some (some "5.0.0") }]
      [] [] (by decide) (by decide) (by decide) (by decide)).1
    simpa using h
  · exact c5_subject_domain.2
      ⟨[.deliveryStatus
          [⟨some "failed", some "a@b.org", none, none, none⟩],
        .rfc822 [some "hello world"]],
        none, none, none, none⟩ [] "20240101" "hello world"
      [{ action := some "failed",
         final_rcpt := some "a@b.org",
         orig_rcpt := some "a@b.org",
         diag_code := some none,
         status := some none }]
      (by decide) (by decide)
